import Mathlib

/-!
Verification development for the bank-statement extraction pipeline
(`final.py` of the repository, with `run_chunked_pipleline.py` as a
secondary variant).  The Python code is shallowly embedded: JSON scalar
values become `PyVal`, Python dict records become association lists,
Python floats are modelled as exact rationals (`Rat`, built with `mkRat`
so that every definition evaluates), and the extraction oracle (an LLM
behind `parse_with_retry`) is opaque, so each page's oracle outcome is
an input of the model.  String manipulation is modelled on `List Char`.
-/

/-- Scalar JSON/Python values that flow through the pipeline.  Numbers are
modelled as exact rationals; Python's `float` is modelled by `Rat`
(decimal strings round-trip identically, which is the only observable
behaviour the pipeline relies on).  Nested arrays/objects never reach the
modelled record fields in the claims under study. -/
inductive PyVal where
  | pynull
  | pystr (s : String)
  | pynum (q : Rat)
  | pybool (b : Bool)
deriving DecidableEq

/-- A transaction record: a Python dict from field name to scalar value,
modelled as an insertion-ordered association list (Python dicts preserve
insertion order and have unique keys). -/
abbrev TxRec := List (String × PyVal)

/-- Python `d[k]` / `k in d`: first matching key. -/
def lookupField (k : String) : TxRec → Option PyVal
  | [] => none
  | kv :: rest => if kv.1 = k then some kv.2 else lookupField k rest

/-- Python `d[k] = v`: update the (first) occurrence of `k` in place, or
append the new key at the end, preserving insertion order. -/
def setField : TxRec → String → PyVal → TxRec
  | [], k, v => [(k, v)]
  | kv :: rest, k, v => if kv.1 = k then (k, v) :: rest else kv :: setField rest k v

/-- Python truthiness of a scalar value (`if tx[field]:`). -/
def truthy : PyVal → Bool
  | .pynull => false
  | .pystr s => s ≠ ""
  | .pynum q => q ≠ 0
  | .pybool b => b

/-- Lift the result of `clean_monetary_value` back into a stored value:
Python stores `None` or the float itself. -/
def optToPyVal : Option Rat → PyVal
  | none => .pynull
  | some q => .pynum q

/-- Python `str.strip()`: drop leading and trailing whitespace. -/
def pyStripChars (cs : List Char) : List Char :=
  ((cs.dropWhile Char.isWhitespace).reverse.dropWhile Char.isWhitespace).reverse

/-- Exact decimal expansion of `num / den` (with `den ∣ 10 ^ k`, `k ≥ 1`),
placing the decimal point `k` digits from the right, zero-padded on the
left like Python's float repr (`0.25`, not `.25`). -/
def decExpansionChars (num den k : Nat) : List Char :=
  let scaled := num * (10 ^ k / den)
  let ds := (toString scaled).toList
  let ds := if ds.length ≤ k then List.replicate (k + 1 - ds.length) '0' ++ ds else ds
  let intLen := ds.length - k
  ds.take intLen ++ '.' :: ds.drop intLen

/-- Models Python `str(float)` as a character list.  Integral floats
print with a trailing `.0` (`str(50000.0) = "50000.0"`); rationals with a
finite decimal expansion print that exact shortest expansion (Python's
repr of a float parsed from a short decimal string prints the same
decimal back).  A rational with no finite decimal expansion cannot arise
from the pipeline's own float values; a fraction marker is emitted
there. -/
def pyFloatReprChars (q : Rat) : List Char :=
  let sign := if q < 0 then ['-'] else ([] : List Char)
  let n := q.num.natAbs
  if q.den = 1 then sign ++ (toString n).toList ++ ['.', '0']
  else
    match (List.range 1200).find? (fun k => 10 ^ (k + 1) % q.den = 0) with
    | some k => sign ++ decExpansionChars n q.den (k + 1)
    | none => sign ++ (toString n).toList ++ '/' :: (toString q.den).toList

/-- Python `str(value)` for the scalar values reaching `clean_monetary_value`. -/
def pyStr : PyVal → String
  | .pynull => "None"
  | .pystr s => s
  | .pynum q => String.mk (pyFloatReprChars q)
  | .pybool b => if b then "True" else "False"

/-- Word character for the regex `\b` boundary (ASCII fragment of `\w`). -/
def isWordChar (c : Char) : Bool := c.isAlphanum || c = '_'

/-- The alternatives of the direction-marker pattern
`(cr|dr|credit|debit)`, lowercase, in the alternation order the regex
engine tries them. -/
def markerPats : List (List Char) := [['c', 'r'], ['d', 'r'],
  ['c', 'r', 'e', 'd', 'i', 't'], ['d', 'e', 'b', 'i', 't']]

/-- Case-insensitive pattern match at the head of the input; returns the
remainder after the matched pattern. -/
def stripPrefixCI : List Char → List Char → Option (List Char)
  | [], cs => some cs
  | _ :: _, [] => none
  | p :: ps, c :: cs => if c.toLower = p then stripPrefixCI ps cs else none

/-- The `\b` boundary after a match ending in a word character: end of
input, or the next character is not a word character. -/
def boundaryAfterOk : List Char → Bool
  | [] => true
  | c :: _ => !isWordChar c

/-- Try each marker alternative at the current position (the regex engine
backtracks into later alternatives when the trailing `\b` fails). -/
def matchMarker (cs : List Char) : Option (List Char) :=
  markerPats.findSome? fun p =>
    match stripPrefixCI p cs with
    | some rest => if boundaryAfterOk rest then some rest else none
    | none => none

/-- Left-to-right non-overlapping scan of the case-insensitive
substitution deleting whole-word `cr`, `dr`, `credit`, `debit`
(final.py line 36).  The Bool argument records whether the previous
character of the original string is a word character (for the leading
`\b`; every alternative starts with a word character, so the boundary
holds iff it is not).  The fuel argument starts at the input length;
every step consumes at least one input character, so the fuel never runs
out. -/
def stripMarkersAux : Nat → Bool → List Char → List Char
  | 0, _, cs => cs
  | _ + 1, _, [] => []
  | fuel + 1, prevW, c :: cs =>
    if prevW then c :: stripMarkersAux fuel (isWordChar c) cs
    else
      match matchMarker (c :: cs) with
      | some rest => stripMarkersAux fuel true rest
      | none => c :: stripMarkersAux fuel (isWordChar c) cs

/-- Removes the whole-word direction markers Cr/Dr/Credit/Debit. -/
def stripMarkers (cs : List Char) : List Char :=
  stripMarkersAux cs.length false cs

/-- The currency character class of `clean_monetary_value` (final.py
line 39): note it contains the individual characters `R`, `s`, `.`, `U`,
`S`, `D` (the author wrote the tokens `Rs.` and `USD` inside a character
class), so in particular every decimal point is in the class.  The `\s`
entry is the whitespace class. -/
def currencyClassChar (c : Char) : Bool :=
  c = '₹' || c = '$' || c = '£' || c = '€' || c = '¥' || c = 'R' || c = 's' ||
    c = '.' || c = 'U' || c = 'S' || c = 'D' || c.isWhitespace ||
    c = '\x0b' || c = '\x0c'

/-- Characters kept by the final regex filter of `clean_monetary_value`
(final.py line 45): digits, decimal point and minus. -/
def keepNumChar (c : Char) : Bool := c.isDigit || c = '.' || c = '-'

/-- The character pipeline of `clean_monetary_value` after the
null/placeholder checks: strip direction markers, strip the
currency-symbol character class, strip commas, keep only digits, dot and
minus. -/
def cleanedDigits (cs : List Char) : List Char :=
  (((stripMarkers cs).filter (fun c => !currencyClassChar c)).filter (· ≠ ',')).filter keepNumChar

/-- Value of a digit list read in base 10. -/
def parseDigits (cs : List Char) : Nat :=
  cs.foldl (fun a c => a * 10 + (c.toNat - '0'.toNat)) 0

/-- Python `float()` on an unsigned mantissa drawn from the alphabet
`0-9 . -`: digits with at most one dot and at least one digit.  A stray
minus (only possible inside, the sign was already consumed) or a second
dot makes parsing fail. -/
def parseMantissa (cs : List Char) : Option Rat :=
  if (cs.takeWhile (· ≠ '.')).any (fun c => !c.isDigit) then none
  else
    match cs.dropWhile (· ≠ '.') with
    | [] => if (cs.takeWhile (· ≠ '.')).isEmpty then none
        else some (mkRat (parseDigits (cs.takeWhile (· ≠ '.'))) 1)
    | _ :: frac =>
      if frac.any (fun c => !c.isDigit) then none
      else if (cs.takeWhile (· ≠ '.')).isEmpty && frac.isEmpty then none
      else some (mkRat (parseDigits (cs.takeWhile (· ≠ '.')) * 10 ^ frac.length + parseDigits frac)
          (10 ^ frac.length))

/-- Python `float()` restricted to the strings that survive the cleaning
filters (alphabet `0-9 . -`): an optional single leading minus, then a
valid mantissa. -/
def parsePyFloat : List Char → Option Rat
  | '-' :: rest => (parseMantissa rest).map (fun q => -q)
  | cs => parseMantissa cs

/-- The stripped string representation of the input value
(`str(value).strip()`). -/
def strippedChars (v : PyVal) : List Char := pyStripChars (pyStr v).toList

/-- The lowercase placeholder tokens mapped to `None`. -/
def placeholderTokens : List (List Char) :=
  ["null".toList, "none".toList, "n/a".toList, "-".toList]

/-- Embedding of `clean_monetary_value` (final.py lines 22-57): `None`
and `""` map to `None`; after `str(value).strip()`, the placeholder
tokens map to `None`; then markers, currency class and commas are
stripped, non-numeric characters dropped, and the remainder parsed with
`float` and passed through `abs`.  Any parse failure yields `None`; the
function is total (the Python original never raises: the `float` call is
wrapped in `try/except`). -/
def clean_monetary_value (v : PyVal) : Option Rat :=
  if v = .pynull ∨ v = .pystr "" then none
  else if (strippedChars v).isEmpty ∨ (strippedChars v).map Char.toLower ∈ placeholderTokens then
    none
  else if (cleanedDigits (strippedChars v)).isEmpty then none
  else (parsePyFloat (cleanedDigits (strippedChars v))).map (fun q => |q|)

/-- Applying `clean_monetary_value` twice: the intermediate Python value
is `None` or the float returned by the first application. -/
def cleanTwice (v : PyVal) : Option Rat :=
  clean_monetary_value (optToPyVal (clean_monetary_value v))

/-- Claim C1 (code_bug evidence).  The claim states that
`clean_monetary_value "1,142,432.00Cr"` is `1142432.00` and
`clean_monetary_value "-500.00 Dr"` is `500.00`, which is also what the
in-source prompt examples (final.py lines 351 and 356) document as the
intended behaviour.  The code instead strips every decimal point, because
the currency-symbol pattern is a character class containing `.`,
contradicting the function's own later comment "Remove any remaining
non-digit characters except decimal point and minus": the results are
114243200.0 and 50000.0. -/
theorem clean_monetary_value_concrete_eval :
    clean_monetary_value (.pystr "1,142,432.00Cr") = some 114243200 ∧
      clean_monetary_value (.pystr "-500.00 Dr") = some 50000 ∧
      clean_monetary_value (.pystr "1,142,432.00Cr") ≠ some ((1142432 : Rat)) ∧
      clean_monetary_value (.pystr "-500.00 Dr") ≠ some ((500 : Rat)) := by
  refine ⟨by decide, by decide, by decide, by decide⟩

/-- Claim C2 (code_bug evidence).  Monetary normalization is not
idempotent: `clean_monetary_value "500.00" = 50000` (decimal point
stripped by the character-class slip), and re-cleaning that float gives
`clean_monetary_value 50000.0 = 500000`, because `str(50000.0)` is
`"50000.0"` whose dot is stripped again.  The spec's idempotence property
is the documented intent; the deviation is forced by the same decimal
point bug exhibited for C1. -/
theorem clean_monetary_value_not_idempotent :
    clean_monetary_value (.pystr "500.00") = some 50000 ∧
      cleanTwice (.pystr "500.00") = some 500000 ∧
      cleanTwice (.pystr "500.00") ≠ clean_monetary_value (.pystr "500.00") := by
  refine ⟨by decide, by decide, by decide⟩

/-- Claim C5.  For every scalar input, `clean_monetary_value` returns
`None` or a non-negative number: the only numeric result is
`abs(float(...))`.  Totality of the Lean function mirrors the Python
`try/except` (no exception escapes); no sign and no direction marker can
survive since the result is a plain non-negative number. -/
theorem clean_monetary_value_nonneg (v : PyVal) :
    clean_monetary_value v = none ∨
      ∃ q, clean_monetary_value v = some q ∧ 0 ≤ q := by
  unfold clean_monetary_value
  split_ifs
  · exact Or.inl rfl
  · exact Or.inl rfl
  · exact Or.inl rfl
  · cases h : parsePyFloat (cleanedDigits (strippedChars v)) with
    | none => exact Or.inl (by simp [h])
    | some q => exact Or.inr ⟨|q|, by simp [h], abs_nonneg q⟩

/-- A column descriptor as produced by the header-extraction oracle
(final.py schema-discovery prompt).  Fields the oracle may omit are
`Option`s; `position` and `total_columns` are never consulted by the
validation passes and are omitted. -/
structure Col where
  header_name : Option String := none
  data_type : Option String := none
  standardized_field : Option String := none
deriving DecidableEq

/-- The str.replace chain applied to a header name inside the
de-duplication pass (final.py lines 192-202): lowercase, spaces to
underscores, drop dots, `#` to `no`, slashes and dashes to underscores,
drop parentheses.  The chained single-character replacements do not
interact, so a per-character map is equivalent. -/
def slugHeaderDedup (h : String) : String :=
  String.join (h.toList.map fun c =>
    let c := c.toLower
    if c = ' ' then "_" else if c = '.' then "" else if c = '#' then "no"
    else if c = '/' then "_" else if c = '-' then "_"
    else if c = '(' then "" else if c = ')' then "" else String.mk [c])

/-- The shorter replace chain of the backfill pass (final.py line 238):
lowercase, spaces to underscores, drop dots, `#` to `no`. -/
def slugBackfill (h : String) : String :=
  String.join (h.toList.map fun c =>
    let c := c.toLower
    if c = ' ' then "_" else if c = '.' then "" else if c = '#' then "no"
    else String.mk [c])

/-- The `while temp_field in seen_fields` loop (final.py lines 204-210):
first try the base name, then `base_2`, `base_3`, … until a name not in
`seen` is found.  The candidates are pairwise distinct, so among the
first `seen.length + 1` numbered candidates one is always free; the
final fallback arm is unreachable. -/
def freshFieldName (base : String) (seen : List String) : String :=
  if base ∈ seen then
    match (List.range (seen.length + 1)).find?
        (fun k => (base ++ "_" ++ toString (k + 2)) ∉ seen) with
    | some k => base ++ "_" ++ toString (k + 2)
    | none => base ++ "_" ++ toString (seen.length + 2)
  else base

/-- The de-duplication pass over descriptors in order (final.py lines
182-216).  A missing or empty `standardized_field` is skipped (`if not
original_field: continue` — the in-source comment says it "Will be
handled by the fallback logic later"); a repeated field is renamed from
the slugged header (default header `custom_field`) made unique against
the seen set. -/
def dedupGo (seen : List String) : List Col → List Col
  | [] => []
  | c :: rest =>
    match c.standardized_field with
    | none => c :: dedupGo seen rest
    | some f =>
      if f = "" then c :: dedupGo seen rest
      else if f ∈ seen then
        let nf := freshFieldName (slugHeaderDedup (c.header_name.getD "custom_field")) seen
        { c with standardized_field := some nf } :: dedupGo (nf :: seen) rest
      else c :: dedupGo (f :: seen) rest

/-- De-duplication pass entry point (empty seen set). -/
def dedupPass (cols : List Col) : List Col := dedupGo [] cols

/-- Default standardized field derived from the data type (final.py
lines 222-238); unknown types fall back to the slugged header name. -/
def defaultFieldFor (c : Col) : String :=
  let dt := c.data_type.getD "unknown"
  if dt = "date" then "date"
  else if dt = "description" then "description"
  else if dt = "debit" then "debit"
  else if dt = "credit" then "credit"
  else if dt = "balance" then "running_balance"
  else if dt = "reference" then "reference"
  else slugBackfill (c.header_name.getD "unknown")

/-- The backfill pass (final.py lines 219-238): any descriptor with a
missing or empty `standardized_field` receives the data-type default.
Note: unlike the de-duplication pass, this pass performs no uniqueness
check against already-assigned names. -/
def backfillPass (cols : List Col) : List Col :=
  cols.map fun c =>
    if c.standardized_field.getD "" = "" then
      { c with standardized_field := some (defaultFieldFor c) }
    else c

/-- Outcome of the header-extraction oracle on one scanned page, as seen
by the acceptance test of `extract_headers_only`: blank page content
(loader returned nothing), a page-level failure (exception after
retries, or a non-dict response), or a parsed response carrying the
`table_found` flag and the `column_order` list. -/
inductive HeaderOutcome where
  | blank
  | failed
  | resp (tableFound : Bool) (cols : List Col)
deriving DecidableEq

/-- The acceptance test of final.py lines 174-176: the response is a
dict whose `column_structure.table_found` is truthy and whose
`column_order` list is non-empty. -/
def acceptsHeader : HeaderOutcome → Bool
  | .resp true (_ :: _) => true
  | _ => false

/-- Validation applied to an accepted response before the schema is
returned: de-duplication then backfill. -/
def publishSchema : HeaderOutcome → List Col
  | .resp _ cols => backfillPass (dedupPass cols)
  | _ => []

/-- The page scan loop of `extract_headers_only`: blank pages and failed
pages are skipped, the first accepted page's validated structure is
returned, and the scan stops there. -/
def scanHeaders : List HeaderOutcome → Option (List Col)
  | [] => none
  | p :: rest => if acceptsHeader p then some (publishSchema p) else scanHeaders rest

/-- Embedding of `extract_headers_only` (final.py lines 73-253): scan at
most `maxScan` leading pages (`min(max_pages_to_scan, len(pages))`) and
return the first accepted, validated column structure; `none` if no page
in the window is accepted. -/
def extract_headers_only (pages : List HeaderOutcome) (maxScan : Nat) : Option (List Col) :=
  scanHeaders (pages.take maxScan)

/-- First column of the C3 failing input: a date column whose
`standardized_field` the oracle omitted. -/
def c3DateCol : Col := { header_name := some "Date", data_type := some "date" }

/-- Second column of the C3 failing input: a second date-typed column
(for example a value date) also missing `standardized_field`. -/
def c3ValueDateCol : Col := { header_name := some "Value Date", data_type := some "date" }

/-- Claim C3 (code_bug evidence).  An accepted oracle response with two
descriptors that are both missing `standardized_field` and share
`data_type = "date"` is published with the duplicate field `date` twice:
the de-duplication pass skips empty fields (deferring to "the fallback
logic later") and the backfill pass assigns data-type defaults without
any uniqueness check, so the published schema violates the uniqueness
invariant the de-duplication comment says the code exists to prevent. -/
theorem schema_backfill_duplicate_fields :
    extract_headers_only [HeaderOutcome.resp true [c3DateCol, c3ValueDateCol]] 3
        = some [{ c3DateCol with standardized_field := some "date" },
            { c3ValueDateCol with standardized_field := some "date" }] ∧
      ¬ ((publishSchema (HeaderOutcome.resp true [c3DateCol, c3ValueDateCol])).map
          (fun c => c.standardized_field)).Nodup := by
  refine ⟨by decide, by decide⟩

/-- The `positive_fields` computed in `run_improved_docling_pipeline`
(final.py lines 448-452): standardized fields of debit/credit columns,
kept only when truthy (walrus test). -/
def positiveFieldsOf (cols : List Col) : List String :=
  cols.filterMap fun c =>
    if c.data_type.getD "" ∈ (["debit", "credit"] : List String) then
      match c.standardized_field with
      | some f => if f ≠ "" then some f else none
      | none => none
    else none

/-- The `date_fields` computed in `run_improved_docling_pipeline`
(final.py lines 458-462): standardized fields of date columns, kept only
when truthy. -/
def dateFieldsOf (cols : List Col) : List String :=
  cols.filterMap fun c =>
    if c.data_type.getD "" = "date" then
      match c.standardized_field with
      | some f => if f ≠ "" then some f else none
      | none => none
    else none

/-- The first cleaning loop (final.py lines 560-567): for every column of
the schema whose data type is debit, credit or balance, if the record has
the column's standardized field, overwrite it with
`clean_monetary_value` of its value (storing `None` on failure). -/
def cleanMonetaryTx (cols : List Col) (tx : TxRec) : TxRec :=
  cols.foldl
    (fun t c =>
      match c.standardized_field with
      | none => t
      | some f =>
        if c.data_type.getD "" ∈ (["debit", "credit", "balance"] : List String) ∧
            (lookupField f t).isSome then
          setField t f (optToPyVal (clean_monetary_value ((lookupField f t).getD .pynull)))
        else t)
    tx

/-- The legacy positive-fields cleanup (final.py lines 569-574): re-clean
each positive field whose value is present and not `None`. -/
def cleanPositiveTx (pf : List String) (tx : TxRec) : TxRec :=
  pf.foldl
    (fun t f =>
      match lookupField f t with
      | some v => if v ≠ .pynull then setField t f (optToPyVal (clean_monetary_value v)) else t
      | none => t)
    tx

/-- One date-field step of the date standardization loop (final.py lines
576-588): if the field is present and truthy, try the flexible date
parser (`pd.to_datetime(..., errors='coerce')` followed by
`strftime('%Y-%m-%d')`, an external library modelled as the opaque
partial function `parse`); on success overwrite the field with the
formatted date, and on any failure KEEP THE ORIGINAL VALUE (the code's
own comment: "In case of any other parsing error, keep original"). -/
def stepDateField (parse : PyVal → Option String) (t : TxRec) (f : String) : TxRec :=
  match lookupField f t with
  | some v =>
    if truthy v then
      match parse v with
      | some d => setField t f (.pystr d)
      | none => t
    else t
  | none => t

/-- The date standardization loop over all date fields of one record. -/
def normalizeDateFields (parse : PyVal → Option String) (fields : List String) (tx : TxRec) : TxRec :=
  fields.foldl (stepDateField parse) tx

/-- One element of the JSON array returned by the transaction oracle:
either a dict (a record) or anything else (non-dict or falsy entries,
dropped by `[tx for tx in result if tx and isinstance(tx, dict)]`). -/
inductive RawItem where
  | junk
  | tx (r : TxRec)
deriving DecidableEq

/-- Outcome of one page of the transaction-extraction loop (final.py
lines 537-601) as seen by its control flow: blank page content, an
exception while loading or parsing (including `parse_with_retry`
exhausting its retries), a response that is not a JSON list, or a JSON
list of items. -/
inductive PageOutcome where
  | blank
  | failed
  | notList
  | ok (items : List RawItem)
deriving DecidableEq

/-- The `valid_transactions` of one `ok` page after all three cleaning
passes: keep truthy dict items, clean monetary columns, re-clean
positive fields, standardize date fields.  Every failure outcome
contributes no transactions. -/
def validTxOf (cols : List Col) (parse : PyVal → Option String) : PageOutcome → List TxRec
  | .ok items =>
    (((items.filterMap fun it =>
            match it with
            | .tx r => if r ≠ [] then some r else none
            | .junk => none).map
          (cleanMonetaryTx cols)).map
        (cleanPositiveTx (positiveFieldsOf cols))).map
      (normalizeDateFields parse (dateFieldsOf cols))
  | _ => []

/-- Mutable state of the page loop: the consolidated transaction list and
the `last_successful_transaction` context (final.py lines 493-494). -/
structure LoopState where
  allTx : List TxRec
  lastTx : Option TxRec
deriving DecidableEq

/-- One iteration of the page loop: failures and empty results leave the
state unchanged; a page with at least one valid transaction appends them
and updates the context to the page's last valid transaction (final.py
lines 590-592). -/
def stepPage (cols : List Col) (parse : PyVal → Option String) (st : LoopState)
    (p : PageOutcome) : LoopState :=
  match validTxOf cols parse p with
  | [] => st
  | v :: vs => { allTx := st.allTx ++ v :: vs, lastTx := (v :: vs).getLast? }

/-- The whole page loop, starting from no transactions and no context. -/
def runPages (cols : List Col) (parse : PyVal → Option String)
    (pages : List PageOutcome) : LoopState :=
  pages.foldl (stepPage cols parse) { allTx := [], lastTx := none }

/-- A page-level failure: every outcome the loop skips with a log line
(`continue` on blank content, the invalid-format warning for non-list
responses, the `except` handler for exceptions). -/
def pageFailure : PageOutcome → Bool
  | .ok _ => false
  | _ => true

/-- The context handed to `create_detailed_transaction_prompt` when page
`k` (0-based) is processed: the loop state accumulated over the earlier
pages. -/
def promptContextBefore (cols : List Col) (parse : PyVal → Option String)
    (pages : List PageOutcome) (k : Nat) : Option TxRec :=
  (runPages cols parse (pages.take k)).lastTx

/-- Specification-side characterization of the context: the last valid
transaction of the most recent page that yielded at least one valid
transaction, `none` when there is no such page. -/
def lastValidContext (cols : List Col) (parse : PyVal → Option String)
    (pages : List PageOutcome) : Option TxRec :=
  (((pages.map (validTxOf cols parse)).filter (fun v => !v.isEmpty)).getLast?).bind
    (fun v => v.getLast?)

/-- Identifier assignment at consolidation (final.py lines 613-614):
`tx['transaction_id'] = i + 1` over the enumerated final sequence.  This
is the only place identifiers are assigned. -/
def assignIds (txs : List TxRec) : List TxRec :=
  txs.enum.map fun it => setField it.2 "transaction_id" (.pynum ((it.1 + 1 : Nat) : Rat))

/-- Accumulate the keys of one record in first-appearance order
(pandas `DataFrame(list_of_dicts)` column construction). -/
def addKeys (acc : List String) (r : TxRec) : List String :=
  r.foldl (fun a kv => if kv.1 ∈ a then a else a ++ [kv.1]) acc

/-- The DataFrame column set: union of all record keys in order of first
appearance. -/
def dfColumns (txs : List TxRec) : List String := txs.foldl addKeys []

/-- The preferred column prefix (final.py line 621). -/
def standard_columns : List String :=
  ["transaction_id", "date", "description", "debit", "credit", "running_balance", "reference"]

/-- The column reordering of final.py lines 621-623: standard columns
that actually occur, followed by the remaining observed columns. -/
def finalColumns (txs : List TxRec) : List String :=
  let dfc := dfColumns txs
  let pre := standard_columns.filter (fun c => c ∈ dfc)
  pre ++ dfc.filter (fun c => c ∉ pre)

/-- One output row: every final column, with the record's value when
present and an explicit null marker (pandas `NaN`, emitted as an empty
CSV cell) when absent. -/
def projectRow (cols : List String) (r : TxRec) : TxRec :=
  cols.map fun c => (c, (lookupField c r).getD .pynull)

/-- The emitted table: identifier assignment, then projection of every
record onto the uniform reordered column list. -/
def finalRows (txs : List TxRec) : List TxRec :=
  (assignIds txs).map (projectRow (finalColumns (assignIds txs)))

/-- Embedding of `run_improved_docling_pipeline` (final.py lines
424-635): discover the schema from the scanned header pages (aborting
with no output artifact when discovery fails), run the page loop, abort
with no output when no transactions were extracted, otherwise emit the
consolidated table. -/
def run_improved_docling_pipeline (headerPages : List HeaderOutcome) (maxScan : Nat)
    (parse : PyVal → Option String) (pages : List PageOutcome) : Option (List TxRec) :=
  match extract_headers_only headerPages maxScan with
  | none => none
  | some cols =>
    match (runPages cols parse pages).allTx with
    | [] => none
    | t :: ts => some (finalRows (t :: ts))

/-- A date parser that can parse nothing: stands for `pd.to_datetime`
on inputs it coerces to `NaT`. -/
def noParse : PyVal → Option String := fun _ => none

/-- Setting a key makes it readable with that value. -/
theorem lookupField_setField_self (r : TxRec) (k : String) (v : PyVal) :
    lookupField k (setField r k v) = some v := by
  induction r with
  | nil => simp [setField, lookupField]
  | cons kv rest ih =>
    by_cases h : kv.1 = k
    · simp [setField, h, lookupField]
    · simp [setField, h, lookupField, ih]

/-- Setting a key leaves every other key unchanged. -/
theorem lookupField_setField_ne (r : TxRec) (k k' : String) (v : PyVal) (h : k' ≠ k) :
    lookupField k' (setField r k v) = lookupField k' r := by
  induction r with
  | nil => simp [setField, lookupField, Ne.symm h]
  | cons kv rest ih =>
    obtain ⟨a, b⟩ := kv
    by_cases ha : a = k
    · subst ha
      simp [setField, lookupField, Ne.symm h]
    · simp [setField, ha, lookupField, ih]

/-- Claim C4 (counterexample).  The claim says an unparsable date value
is coerced to null.  The date standardization step instead keeps the
original raw value when the parser fails on it: with a date field whose
value `"not a date"` no parser accepts, the record is returned verbatim
and the field is not null. -/
theorem date_normalization_keeps_unparsable :
    normalizeDateFields noParse ["date"] [("date", .pystr "not a date")]
        = [("date", .pystr "not a date")] ∧
      lookupField "date" (normalizeDateFields noParse ["date"] [("date", .pystr "not a date")])
        ≠ some .pynull := by
  refine ⟨by decide, by decide⟩

/-- Claim C4 (amended).  For every date parser, every list of date
fields and every record: a present, truthy field value the parser fails
on is left unchanged by date normalization (the record is kept and no
error is surfaced — the function is total by construction); only
parsable values are rewritten. -/
theorem date_normalization_unparsable_unchanged (parse : PyVal → Option String)
    (fields : List String) (tx : TxRec) (f : String) (v : PyVal)
    (hl : lookupField f tx = some v) (ht : truthy v = true) (hp : parse v = none) :
    lookupField f (normalizeDateFields parse fields tx) = some v := by
  induction fields generalizing tx with
  | nil => simpa [normalizeDateFields] using hl
  | cons g gs ih =>
    have hstep : lookupField f (stepDateField parse tx g) = some v := by
      by_cases hgf : g = f
      · subst hgf
        simp [stepDateField, hl, ht, hp]
      · unfold stepDateField
        cases hg : lookupField g tx with
        | none => exact hl
        | some w =>
          by_cases hw : truthy w
          · cases hpw : parse w with
            | none => simp [hw, hpw, hl]
            | some d =>
              simpa [hw, hpw, lookupField_setField_ne tx g f (.pystr d) (Ne.symm hgf)] using hl
          · simp [hw, hl]
    have : normalizeDateFields parse (g :: gs) tx
        = normalizeDateFields parse gs (stepDateField parse tx g) := by
      simp [normalizeDateFields]
    rw [this]
    exact ih (stepDateField parse tx g) hstep

/-- Witness for the amended C4 theorem at a concrete record and parser. -/
theorem date_normalization_unparsable_unchanged_witness :
    lookupField "date" (normalizeDateFields noParse ["date"] [("date", .pystr "31-02-2024")])
      = some (.pystr "31-02-2024") :=
  date_normalization_unparsable_unchanged noParse ["date"] [("date", .pystr "31-02-2024")]
    "date" (.pystr "31-02-2024") (by decide) (by decide) rfl

/-- A failing page leaves the loop state untouched. -/
theorem stepPage_of_failure (cols : List Col) (parse : PyVal → Option String)
    (st : LoopState) (p : PageOutcome) (h : pageFailure p = true) :
    stepPage cols parse st p = st := by
  cases p with
  | ok items => simp [pageFailure] at h
  | blank => rfl
  | failed => rfl
  | notList => rfl

/-- Claim C7.  A page whose oracle response is not a list, whose content
is blank, or whose processing raises (retries exhausted) is skipped: the
run over the page sequence with the failing page inserted equals the run
without it, so the pipeline continues and every other page's transactions
still reach the output. -/
theorem page_failure_skipped (cols : List Col) (parse : PyVal → Option String)
    (xs ys : List PageOutcome) (p : PageOutcome) (h : pageFailure p = true) :
    runPages cols parse (xs ++ p :: ys) = runPages cols parse (xs ++ ys) := by
  unfold runPages
  rw [List.foldl_append, List.foldl_append, List.foldl_cons,
    stepPage_of_failure cols parse _ p h]

/-- Witness for C7: a garbage middle page in a three-page run changes
nothing relative to the two-page run. -/
theorem page_failure_skipped_witness :
    runPages [] noParse
        ([PageOutcome.ok [RawItem.tx [("a", PyVal.pynum 1)]]] ++ PageOutcome.notList ::
          [PageOutcome.ok [RawItem.tx [("b", PyVal.pynum 2)]]])
      = runPages [] noParse
        ([PageOutcome.ok [RawItem.tx [("a", PyVal.pynum 1)]]] ++
          [PageOutcome.ok [RawItem.tx [("b", PyVal.pynum 2)]]]) :=
  page_failure_skipped [] noParse [PageOutcome.ok [RawItem.tx [("a", PyVal.pynum 1)]]]
    [PageOutcome.ok [RawItem.tx [("b", PyVal.pynum 2)]]] PageOutcome.notList rfl

/-- The loop context equals the spec-side characterization, for every
page sequence. -/
theorem lastTx_runPages (cols : List Col) (parse : PyVal → Option String)
    (pages : List PageOutcome) :
    (runPages cols parse pages).lastTx = lastValidContext cols parse pages := by
  induction pages using List.reverseRecOn with
  | nil => rfl
  | append_singleton l p ih =>
    have hfold : runPages cols parse (l ++ [p])
        = stepPage cols parse (runPages cols parse l) p := by
      simp [runPages, List.foldl_append]
    rw [hfold]
    unfold lastValidContext
    rw [List.map_append, List.filter_append]
    cases hv : validTxOf cols parse p with
    | nil =>
      simp only [stepPage, hv, List.map_cons, List.map_nil]
      have h2 : List.filter (fun v => !v.isEmpty) [([] : List TxRec)] = [] := rfl
      rw [h2, List.append_nil]
      exact ih
    | cons v vs =>
      simp only [stepPage, hv, List.map_cons, List.map_nil]
      have h3 : List.filter (fun w => !w.isEmpty) [v :: vs] = [v :: vs] := rfl
      rw [h3, List.getLast?_concat]
      rfl

/-- Claim C10.  The prior-transaction context used to build the prompt
for page `k` is the last valid transaction of the most recent earlier
page that yielded at least one valid transaction; pages that fail, are
blank, or yield zero valid transactions leave the context unchanged, and
it is null until the first page with a valid transaction. -/
theorem prompt_context_last_valid (cols : List Col) (parse : PyVal → Option String)
    (pages : List PageOutcome) (k : Nat) :
    promptContextBefore cols parse pages k = lastValidContext cols parse (pages.take k) :=
  lastTx_runPages cols parse (pages.take k)

/-- The header scan returns the first accepted page's published schema. -/
theorem scanHeaders_eq_find (l : List HeaderOutcome) :
    scanHeaders l = (l.find? acceptsHeader).map publishSchema := by
  induction l with
  | nil => rfl
  | cons p rest ih =>
    cases hp : acceptsHeader p with
    | false => simp [scanHeaders, hp, ih, List.find?_cons_of_neg]
    | true => simp [scanHeaders, hp, List.find?_cons_of_pos]

/-- Claim C8.  Schema discovery examines pages in order within the scan
window and returns the validated structure of the first page whose
response has a truthy `table_found` and a non-empty `column_order`
(stopping there); when no page in the window is accepted it returns
none, and the whole run then terminates without producing any output
artifact. -/
theorem schema_discovery_first_accepted (ps : List HeaderOutcome) (maxScan : Nat)
    (parse : PyVal → Option String) (pages : List PageOutcome) :
    extract_headers_only ps maxScan
        = ((ps.take maxScan).find? acceptsHeader).map publishSchema ∧
      (extract_headers_only ps maxScan = none →
        run_improved_docling_pipeline ps maxScan parse pages = none) := by
  refine ⟨scanHeaders_eq_find _, fun h => ?_⟩
  unfold run_improved_docling_pipeline
  rw [h]

/-- Witness for C8: a run whose only scanned page fails produces no
output artifact. -/
theorem schema_discovery_first_accepted_witness :
    run_improved_docling_pipeline [HeaderOutcome.failed] 3 noParse [] = none :=
  (schema_discovery_first_accepted [HeaderOutcome.failed] 3 noParse []).2 (by decide)

/-- Looking up a key in a projected row: every listed column is present,
with the record's value or an explicit null. -/
theorem lookupField_projectRow (cols : List String) (r : TxRec) (k : String) :
    lookupField k (projectRow cols r)
      = if k ∈ cols then some ((lookupField k r).getD .pynull) else none := by
  induction cols with
  | nil => simp [projectRow, lookupField]
  | cons c cs ih =>
    have hcons : projectRow (c :: cs) r = (c, (lookupField c r).getD .pynull) :: projectRow cs r :=
      rfl
    rw [hcons]
    by_cases h : c = k
    · subst h
      simp [lookupField]
    · simp [lookupField, h, ih, List.mem_cons, Ne.symm h]

/-- Accumulated keys are never lost. -/
theorem mem_addKeys_left (k : String) :
    ∀ (r : TxRec) (acc : List String), k ∈ acc → k ∈ addKeys acc r := by
  intro r
  induction r with
  | nil => intro acc h; simpa [addKeys] using h
  | cons kv rest ih =>
    intro acc h
    have hstep : addKeys acc (kv :: rest)
        = addKeys (if kv.1 ∈ acc then acc else acc ++ [kv.1]) rest := by
      simp [addKeys]
    rw [hstep]
    refine ih _ ?_
    split
    · exact h
    · exact List.mem_append_left _ h

/-- A key present in a record enters the accumulated key list. -/
theorem mem_addKeys_self (k : String) :
    ∀ (r : TxRec) (acc : List String), (lookupField k r).isSome → k ∈ addKeys acc r := by
  intro r
  induction r with
  | nil => intro acc h; simp [lookupField] at h
  | cons kv rest ih =>
    intro acc h
    have hstep : addKeys acc (kv :: rest)
        = addKeys (if kv.1 ∈ acc then acc else acc ++ [kv.1]) rest := by
      simp [addKeys]
    rw [hstep]
    by_cases hk : kv.1 = k
    · apply mem_addKeys_left
      subst hk
      split_ifs with hmem
      · exact hmem
      · exact List.mem_append_right _ (by simp)
    · refine ih _ ?_
      simpa [lookupField, hk] using h

/-- Keys survive the whole fold over the remaining records. -/
theorem mem_foldl_addKeys_left (k : String) :
    ∀ (txs : List TxRec) (acc : List String), k ∈ acc → k ∈ List.foldl addKeys acc txs := by
  intro txs
  induction txs with
  | nil => intro acc h; simpa using h
  | cons t ts ih =>
    intro acc h
    rw [List.foldl_cons]
    exact ih _ (mem_addKeys_left k t acc h)

/-- A key of any record appears among the DataFrame columns. -/
theorem mem_foldl_addKeys (k : String) :
    ∀ (txs : List TxRec) (acc : List String) (r : TxRec),
      r ∈ txs → (lookupField k r).isSome → k ∈ List.foldl addKeys acc txs := by
  intro txs
  induction txs with
  | nil => intro acc r hr; cases hr
  | cons t ts ih =>
    intro acc r hr h
    rw [List.foldl_cons]
    rcases List.mem_cons.1 hr with h1 | h1
    · subst h1
      exact mem_foldl_addKeys_left k ts _ (mem_addKeys_self k r acc h)
    · exact ih _ r h1 h

/-- Identifier lookup over the enumerated, projected records: position
`i` (counting from `n`) carries identifier `i + 1`. -/
theorem ids_of_enumFrom (cols : List String) (hc : "transaction_id" ∈ cols) :
    ∀ (txs : List TxRec) (n : Nat),
      ((List.enumFrom n txs).map fun it =>
          lookupField "transaction_id"
            (projectRow cols (setField it.2 "transaction_id" (.pynum ((it.1 + 1 : Nat) : Rat)))))
        = (List.range' n txs.length).map fun i => some (PyVal.pynum ((i + 1 : Nat) : Rat)) := by
  intro txs
  induction txs with
  | nil => intro n; rfl
  | cons r rest ih =>
    intro n
    have hhead : lookupField "transaction_id"
        (projectRow cols (setField r "transaction_id" (.pynum ((n + 1 : Nat) : Rat))))
        = some (PyVal.pynum ((n + 1 : Nat) : Rat)) := by
      rw [lookupField_projectRow, if_pos hc, lookupField_setField_self]
      rfl
    simp only [List.enumFrom, List.map_cons, List.length_cons, List.range'_succ]
    rw [hhead, ih (n + 1)]

/-- Claim C6.  Whenever the pipeline emits an output table, the
`transaction_id` of its `i`-th row is exactly `i + 1`: the identifiers
over the `N` emitted records are exactly `1..N`, with no gaps or
repeats, assigned by position in the final concatenated sequence (the
page loop concatenates in page order preserving row order, and
`assignIds` — the sole identifier assignment, performed at
consolidation — numbers that sequence). -/
theorem transaction_ids_contiguous (hps : List HeaderOutcome) (maxScan : Nat)
    (parse : PyVal → Option String) (pages : List PageOutcome) (rows : List TxRec)
    (h : run_improved_docling_pipeline hps maxScan parse pages = some rows) :
    rows.map (lookupField "transaction_id")
      = (List.range rows.length).map fun i => some (PyVal.pynum ((i + 1 : Nat) : Rat)) := by
  unfold run_improved_docling_pipeline at h
  split at h
  · exact absurd h (by simp)
  · split at h
    · exact absurd h (by simp)
    · rename_i t ts hT
      have hrows : finalRows (t :: ts) = rows := Option.some.inj h
      subst hrows
      have hkey : (lookupField "transaction_id"
          (setField t "transaction_id" (.pynum ((0 + 1 : Nat) : Rat)))).isSome := by
        rw [lookupField_setField_self]
        rfl
      have hmem : setField t "transaction_id" (.pynum ((0 + 1 : Nat) : Rat))
          ∈ assignIds (t :: ts) := List.mem_cons_self _ _
      have hdf : "transaction_id" ∈ dfColumns (assignIds (t :: ts)) :=
        mem_foldl_addKeys "transaction_id" (assignIds (t :: ts)) [] _ hmem hkey
      have hc : "transaction_id" ∈ finalColumns (assignIds (t :: ts)) := by
        refine List.mem_append_left _ ?_
        rw [List.mem_filter]
        exact ⟨by decide, by simpa using hdf⟩
      have hlen : (finalRows (t :: ts)).length = (t :: ts).length := by
        simp [finalRows, assignIds, List.enum_length]
      rw [hlen, List.range_eq_range']
      have hmain := ids_of_enumFrom (finalColumns (assignIds (t :: ts))) hc (t :: ts) 0
      calc (finalRows (t :: ts)).map (lookupField "transaction_id")
          = (List.enumFrom 0 (t :: ts)).map fun it =>
              lookupField "transaction_id"
                (projectRow (finalColumns (assignIds (t :: ts)))
                  (setField it.2 "transaction_id" (.pynum ((it.1 + 1 : Nat) : Rat)))) := by
            simp [finalRows, assignIds, List.map_map, List.enum, Function.comp]
        _ = (List.range' 0 (t :: ts).length).map
              fun i => some (PyVal.pynum ((i + 1 : Nat) : Rat)) := hmain

/-- A fully-specified date column used by the concrete runs. -/
def dateColFull : Col :=
  { header_name := some "Date", data_type := some "date", standardized_field := some "date" }

/-- A fully-specified debit column used by the concrete runs. -/
def debitColFull : Col :=
  { header_name := some "Debit", data_type := some "debit", standardized_field := some "debit" }

/-- A one-column schema response used to exercise the pipeline
end-to-end. -/
def c6Header : HeaderOutcome := .resp true [dateColFull]

/-- A one-record page whose date value no parser accepts. -/
def c6Page : PageOutcome := .ok [RawItem.tx [("date", PyVal.pystr "x")]]

/-- Witness for C6 at a concrete one-page run. -/
theorem transaction_ids_contiguous_witness :
    ([[("transaction_id", PyVal.pynum 1), ("date", PyVal.pystr "x")]] : List TxRec).map
        (lookupField "transaction_id")
      = (List.range
            ([[("transaction_id", PyVal.pynum 1), ("date", PyVal.pystr "x")]] : List TxRec).length).map
          fun i => some (PyVal.pynum ((i + 1 : Nat) : Rat)) :=
  transaction_ids_contiguous [c6Header] 3 noParse [c6Page]
    [[("transaction_id", PyVal.pynum 1), ("date", PyVal.pystr "x")]] (by decide)

/-- The two-column schema response of the C9 counterexample: a date
column and a debit column. -/
def c9Header : HeaderOutcome := .resp true [dateColFull, debitColFull]

/-- A page whose oracle response carries a record with the invented key
`foo` and none of the schema's fields. -/
def c9Page : PageOutcome := .ok [RawItem.tx [("foo", PyVal.pystr "x")]]

/-- Claim C9 (counterexample).  The consolidated output's key set is NOT
the schema's `standardized_field` set: with the discovered schema fields
`date` and `debit` and an oracle record `{"foo": "x"}`, the emitted row
has keys `transaction_id` and `foo` — the non-schema key `foo` survives
and the schema fields `date` and `debit` are absent, because no
validation projects records onto the schema; the output columns are the
union of the keys actually present in the records. -/
theorem output_keys_not_schema_keys :
    run_improved_docling_pipeline [c9Header] 3 noParse [c9Page]
        = some [[("transaction_id", PyVal.pynum 1), ("foo", PyVal.pystr "x")]] ∧
      (extract_headers_only [c9Header] 3).map (fun cols => cols.map fun c => c.standardized_field)
        = some [some "date", some "debit"] ∧
      ¬ (["transaction_id", "foo"] : List String) = ["transaction_id", "date", "debit"] := by
  refine ⟨by decide, by decide, by decide⟩

/-- Claim C9 (amended).  Every row of the consolidated output exposes
the same key set: the final column list, that is `transaction_id` and
the standard-prefix reordering of every key observed in some record,
with absent data stored as an explicit null under its key (never a
missing key).  This key set equals the schema's fields only when the
oracle's records carry exactly the schema's fields. -/
theorem output_rows_uniform_keys (txs : List TxRec) (row : TxRec)
    (h : row ∈ finalRows txs) :
    row.map Prod.fst = finalColumns (assignIds txs) := by
  unfold finalRows at h
  obtain ⟨r, hr, rfl⟩ := List.mem_map.1 h
  simp [projectRow, List.map_map, Function.comp_def]

/-- Witness for the amended C9 theorem at a concrete record list. -/
theorem output_rows_uniform_keys_witness :
    ([("transaction_id", PyVal.pynum 1), ("a", PyVal.pynull)] : TxRec).map Prod.fst
      = finalColumns (assignIds [[("a", PyVal.pynull)]]) :=
  output_rows_uniform_keys [[("a", PyVal.pynull)]]
    [("transaction_id", PyVal.pynum 1), ("a", PyVal.pynull)] (by decide)
